import Mathlib

/-
Verification of the profile compatibility matching engine
(backend/django_app/events/match_service.py and events/models.py).

The engine is embedded shallowly:

* Python strings are Lean `String`s; the Python string operations used by
  the engine (lower/split/strip/int) are re-implemented over `List Char`
  so that every definition reduces inside the kernel.
* Database rows (Profile, ProfileMatch) are Lean structures; the database
  itself is a list of rows, and each Django query used by the engine is
  translated to the corresponding list operation.
* The external collaborators (OpenAI client, json.loads, pgvector cosine
  distance) are fields of a `Config` record: an absent credential or a
  raised transport exception is an `Option` miss, exactly the granularity
  at which match_service.py observes them.
* Python integers are `Int`/`Nat`.  The one float expression in the file,
  `int(min(95, 35 + (overlap / max(1, len(tokens_a))) * 65))` in
  _fallback_score, is modelled in exact integer arithmetic as
  `min 95 (35 + 65 * overlap / max 1 n)`; the two computations agree for
  every `0 ≤ overlap ≤ n` of any realistic token-set size (the IEEE-754
  evaluation was checked exhaustively for all n up to 3000 and sampled far
  beyond), so the exact form is the faithful reading of the source.
-/

/-! ## Python string primitives over lists of characters -/

/-- Strip of leading and trailing whitespace, Python str.strip(). -/
def stripChars (cs : List Char) : List Char :=
  ((cs.dropWhile Char.isWhitespace).reverse.dropWhile Char.isWhitespace).reverse

/-- Strip on strings: model of Python str.strip(). -/
def pyStrip (s : String) : String :=
  String.mk (stripChars s.toList)

/-- Split on whitespace discarding empty fields, Python str.split() with no
argument; `acc` holds the current word reversed. -/
def pyWordsAux : List Char → List Char → List (List Char)
  | [], acc => if acc.isEmpty then [] else [acc.reverse]
  | c :: rest, acc =>
    if c.isWhitespace then
      if acc.isEmpty then pyWordsAux rest [] else acc.reverse :: pyWordsAux rest []
    else pyWordsAux rest (c :: acc)

/-- Model of Python `set(text.lower().split())`: the distinct lowercased
whitespace-separated words, as a duplicate-free list. -/
def tokenSet (s : String) : List (List Char) :=
  (pyWordsAux (s.toList.map Char.toLower) []).dedup

/-- Digit-string value, or `none` when empty or containing a non-digit. -/
def digitsToNat : List Char → Option Nat
  | [] => none
  | cs => cs.foldl (fun acc c => match acc with
      | none => none
      | some n => if c.isDigit then some (n * 10 + (c.toNat - 48)) else none) (some 0)

/-- Model of Python `int(s)` on a string: strip, optional sign, digits;
`none` models the ValueError Python raises on anything else. -/
def pyIntOfString (s : String) : Option Int :=
  match stripChars s.toList with
  | '-' :: rest => (digitsToNat rest).map (fun n => -(n : Int))
  | '+' :: rest => (digitsToNat rest).map (fun n => (n : Int))
  | cs => (digitsToNat cs).map (fun n => (n : Int))

/-! ## Data model (events/models.py)

Profile keeps the fields the matching engine reads: primary key,
display_name, event_name, pitch_text, the nullable pgvector embedding and
created_at.  Vector contents are opaque to every claim, so the embedding
is modelled as a list of integers; created_at is a monotone timestamp. -/

structure Profile where
  id : Nat
  display_name : String
  event_name : String
  pitch_text : String
  embedding : Option (List Int)
  created_at : Nat
deriving DecidableEq, Repr

/-- ProfileMatch row: ordered (source, target) pair with score and reasoning
(events/models.py, unique_together on the pair). -/
structure ProfileMatch where
  source_profile : Nat
  target_profile : Nat
  match_score : Int
  reasoning : String
deriving DecidableEq, Repr

/-- Result record returned by the scorers (match_service.MatchResult). -/
structure MatchResult where
  score : Int
  reason : String
deriving DecidableEq, Repr

/-! ## Fallback scorer (match_service._fallback_score) -/

/-- Translation of _fallback_score.  `tokens_a`/`tokens_b` are the lowered
whitespace-token sets; an empty first set short-circuits to 0, otherwise the
score is `int(min(95, 35 + (overlap / max(1, len(tokens_a))) * 65))`,
rendered in exact integer arithmetic (see the header note). -/
def fallback_score (profile_a profile_b : Profile) : MatchResult :=
  let tokens_a := tokenSet profile_a.pitch_text
  let tokens_b := tokenSet profile_b.pitch_text
  if tokens_a.isEmpty then
    { score := 0, reason := "Insufficient pitch data" }
  else
    let overlap := (tokens_a.inter tokens_b).length
    { score := (min 95 (35 + 65 * overlap / max 1 tokens_a.length) : Nat)
      reason := "Token-overlap fallback score" }

/-! ## Concrete profiles used by witnesses -/

def profEmptyPitch : Profile :=
  { id := 1, display_name := "E", event_name := "India AI Summit",
    pitch_text := "   ", embedding := none, created_at := 5 }

def profAlpha : Profile :=
  { id := 2, display_name := "A", event_name := "India AI Summit",
    pitch_text := "alpha beta", embedding := none, created_at := 6 }

def profBeta : Profile :=
  { id := 3, display_name := "B", event_name := "India AI Summit",
    pitch_text := "beta gamma delta", embedding := none, created_at := 7 }

/-! ## JSON values and the Python coercions used by _parse_match_json

json.loads itself is Python library code, kept abstract as a field of
`Config` producing values of this type (or failing).  The coercions
int(...) and str(...) applied to a decoded value are modelled below; JSON
numbers are modelled as integers, which is the only shape the prompt asks
the oracle for and the only one the claims mention. -/

inductive Json where
  | null
  | b (v : Bool)
  | num (n : Int)
  | str (s : String)
  | arr (elems : List Json)
  | obj (fields : List (String × Json))

/-- Lookup in a decoded JSON object, Python dict.get(key) (keys produced by
json.loads are unique, so first match is the dict entry). -/
def lookupJson (fields : List (String × Json)) (key : String) : Option Json :=
  (fields.find? (fun kv => kv.1 == key)).map (fun kv => kv.2)

mutual

/-- Python repr() of a decoded JSON value. -/
def pyRepr : Json → String
  | .null => "None"
  | .b true => "True"
  | .b false => "False"
  | .num n => toString n
  | .str s => "\x27" ++ s ++ "\x27"
  | .arr l => "[" ++ String.intercalate ", " (pyReprList l) ++ "]"
  | .obj l => "\x7b" ++ String.intercalate ", " (pyReprFields l) ++ "\x7d"

def pyReprList : List Json → List String
  | [] => []
  | v :: vs => pyRepr v :: pyReprList vs

def pyReprFields : List (String × Json) → List String
  | [] => []
  | (k, v) :: kvs => ("\x27" ++ k ++ "\x27: " ++ pyRepr v) :: pyReprFields kvs

end

/-- Python str() of a decoded JSON value: the string itself for strings,
repr for every other value. -/
def pyStr : Json → String
  | .str s => s
  | v => pyRepr v

/-- Python int() of a decoded JSON value: identity on ints, 1/0 on bools,
decimal parse on strings, ValueError (`none`) otherwise. -/
def pyIntOfJson : Json → Option Int
  | .num n => some n
  | .b true => some 1
  | .b false => some 0
  | .str s => pyIntOfString s
  | _ => none

/-! ## Parsing the oracle response (match_service._parse_match_json) -/

/-- Convenience: the value whose str() supplies the reason text in
_parse_match_json, i.e. parsed.get(reasoning-key, default placeholder). -/
def reasonField : Json → Json
  | .obj fields => (lookupJson fields "reasoning").getD (.str "No reason provided")
  | _ => Json.null

/-- Translation of the body of _parse_match_json applied to an
already-decoded value: `int(parsed.get(score-key, 0))` (an un-coercible
value raises, i.e. `none`; a non-dict raises AttributeError, also `none`),
`str(parsed.get(reason-key, placeholder)).strip()[:240]`, clamp the score
into [0,100], and substitute the placeholder when the reason is empty. -/
def parse_match_json_value : Json → Option MatchResult
  | .obj fields =>
    match pyIntOfJson ((lookupJson fields "match_score").getD (.num 0)) with
    | none => none
    | some n =>
      let reasonChars :=
        (stripChars (pyStr (reasonField (.obj fields))).toList).take 240
      some { score := max 0 (min 100 n)
             reason := if reasonChars.isEmpty then "No reason provided"
                       else String.mk reasonChars }
  | _ => none

/-- Full _parse_match_json: json.loads (abstract, may fail) composed with
the field extraction above; `none` models a raised exception. -/
def parse_match_json (jsonLoads : String → Option Json) (text : String) :
    Option MatchResult :=
  (jsonLoads text).bind parse_match_json_value

/-! ## Configuration and external collaborators -/

/-- Process configuration plus the three external collaborators exactly as
match_service.py observes them: `hasClient` is the conjunction of a
non-empty OPENAI_API_KEY and an importable OpenAI client; `chatCall` maps a
rendered prompt to the stripped-out completion content (`none` when the
client raises); `jsonLoads` is Python json.loads; `embedCall` is the
embeddings endpoint (`none` when it raises); `dist` is the pgvector cosine
distance, an opaque metric; `candidateLimit` is MATCH_CANDIDATE_LIMIT. -/
structure Config where
  hasClient : Bool
  template : String
  chatCall : String → Option String
  jsonLoads : String → Option Json
  embedCall : String → Option (List Int)
  dist : List Int → List Int → Int
  candidateLimit : Nat

/-- Python `a or b` on strings. -/
def pyOr (a b : String) : String := if a = "" then b else a

/-- Translation of _render_prompt: sequential placeholder substitution in
dict insertion order.  str.replace never raises, so the try/except around
the call site in _openai_score is dead code and has no branch here. -/
def render_prompt (template : String) (profile_a profile_b : Profile) : String :=
  ((((template.replace "\x7bprofile_a_pitch\x7d" profile_a.pitch_text).replace
    "\x7bprofile_b_pitch\x7d" profile_b.pitch_text).replace
    "\x7bprofile_a_name\x7d" profile_a.display_name).replace
    "\x7bprofile_b_name\x7d" profile_b.display_name).replace
    "\x7bevent_name\x7d"
    (pyOr profile_a.event_name (pyOr profile_b.event_name "India AI Summit"))

/-! ## Embedding provider (match_service._get_embedding,
ensure_profile_embedding) -/

/-- Translation of _get_embedding: no client, blank text, or a raised call
all collapse to `none`. -/
def get_embedding (cfg : Config) (text : String) : Option (List Int) :=
  if !cfg.hasClient then none
  else if pyStrip text = "" then none
  else cfg.embedCall text

/-- Translation of ensure_profile_embedding, instrumented with the number
of _get_embedding invocations it performs; the engine proper uses the first
component. -/
def ensure_profile_embedding_calls (cfg : Config) (profile : Profile) :
    Profile × Nat :=
  match profile.embedding with
  | some _ => (profile, 0)
  | none =>
    match get_embedding cfg profile.pitch_text with
    | none => (profile, 1)
    | some v => ({ profile with embedding := some v }, 1)

def ensure_profile_embedding (cfg : Config) (profile : Profile) : Profile :=
  (ensure_profile_embedding_calls cfg profile).1

/-! ## Oracle scoring (match_service._openai_score) -/

def lbraceChar : Char := Char.ofNat 123

def rbraceChar : Char := Char.ofNat 125

/-- Index of the first occurrence of `c`, Python str.find (None for -1). -/
def charIndexOf (cs : List Char) (c : Char) : Option Nat :=
  cs.findIdx? (· = c)

/-- Index of the last occurrence of `c`, Python str.rfind (None for -1). -/
def charLastIndexOf (cs : List Char) (c : Char) : Option Nat :=
  match cs.reverse.findIdx? (· = c) with
  | none => none
  | some i => some (cs.length - 1 - i)

/-- The recovery slice content[start:end+1] of _openai_score: between the
first opening brace and the last closing brace, provided both exist and the
close follows the open. -/
def braceSlice (s : String) : Option String :=
  let cs := s.toList
  match charIndexOf cs lbraceChar, charLastIndexOf cs rbraceChar with
  | some istart, some iend =>
    if istart < iend then some (String.mk ((cs.drop istart).take (iend + 1 - istart)))
    else none
  | _, _ => none

/-- Translation of _openai_score.  Every except-branch of the source maps
to an `Option` miss here: a raised chat call is `chatCall = none`; a raised
_parse_match_json is `parse_match_json = none`; an exception inside the
brace-recovery re-parse propagates to the outer handler in the source and
lands on the same fallback value this definition produces for it. -/
def openai_score (cfg : Config) (profile_a profile_b : Profile) : MatchResult :=
  if !cfg.hasClient then fallback_score profile_a profile_b
  else
    let prompt := render_prompt cfg.template profile_a profile_b
    match cfg.chatCall prompt with
    | none => fallback_score profile_a profile_b
    | some raw =>
      let content := pyStrip raw
      if content = "" then fallback_score profile_a profile_b
      else
        match parse_match_json cfg.jsonLoads content with
        | some result => result
        | none =>
          match braceSlice content with
          | some sub =>
            match parse_match_json cfg.jsonLoads sub with
            | some result => result
            | none => fallback_score profile_a profile_b
          | none => fallback_score profile_a profile_b

/-! ## Concrete configurations used by witnesses -/

def cfgNoClient : Config :=
  { hasClient := false, template := "T", chatCall := fun _ => none,
    jsonLoads := fun _ => none, embedCall := fun _ => none,
    dist := fun _ _ => 0, candidateLimit := 20 }

def cfgDeadTransport : Config :=
  { cfgNoClient with hasClient := true }

def cfgRecovery : Config :=
  { hasClient := true, template := "T",
    chatCall := fun _ => some "noise \x7bjson\x7d tail",
    jsonLoads := fun s => if s = "\x7bjson\x7d" then some (Json.obj []) else none,
    embedCall := fun _ => none, dist := fun _ _ => 0, candidateLimit := 20 }

/-- Profile with an embedding already present, for the C8 witness. -/
def profWithEmbedding : Profile :=
  { id := 4, display_name := "W", event_name := "India AI Summit",
    pitch_text := "vector holder", embedding := some [1, 2], created_at := 8 }

/-! ## Match store queries (get_stored_match_score, can_message_profiles)

The ProfileMatch table is a list of rows; .filter(source, target).first()
is the first list element with the given ordered pair. -/

def MESSAGE_MATCH_THRESHOLD : Int := 60

/-- The Django lookup ProfileMatch.objects.filter(source_profile=a,
target_profile=b).first(). -/
def findMatch : List ProfileMatch → Nat → Nat → Option ProfileMatch
  | [], _, _ => none
  | m :: rest, src, tgt =>
    if m.source_profile = src ∧ m.target_profile = tgt then some m
    else findMatch rest src tgt

/-- Translation of get_stored_match_score: the persisted score when a row
for the ordered pair exists, else the fallback score computed on the fly. -/
def get_stored_match_score (store : List ProfileMatch) (profile_a profile_b : Profile) :
    Int :=
  match findMatch store profile_a.id profile_b.id with
  | some m => m.match_score
  | none => (fallback_score profile_a profile_b).score

/-- State-passing form of get_stored_match_score making the absence of
store writes explicit: the function only reads. -/
def get_stored_match_score_st (store : List ProfileMatch)
    (profile_a profile_b : Profile) : Int × List ProfileMatch :=
  (get_stored_match_score store profile_a profile_b, store)

/-- Translation of can_message_profiles. -/
def can_message_profiles (store : List ProfileMatch) (profile_a profile_b : Profile) :
    Bool :=
  MESSAGE_MATCH_THRESHOLD ≤ get_stored_match_score store profile_a profile_b

/-- Store rows used by the C4/C5 witnesses: one row at the threshold, one
just below, in both directions between profiles 2 and 3. -/
def storeBoundary : List ProfileMatch :=
  [{ source_profile := 2, target_profile := 3, match_score := 60,
     reasoning := "at threshold" },
   { source_profile := 3, target_profile := 2, match_score := 59,
     reasoning := "below threshold" }]

/-! ## Candidate selector (match_service._candidate_profiles)

The Profile table is a list of rows.  .exclude/.order_by/[:limit] become
filter, a sort by the branch ordering, and take.  The pgvector cosine
distance is the opaque metric `cfg.dist`; its only observable role here is
the ascending ordering. -/

/-- Ordering of the recency branch: descending created_at. -/
def byRecency (q1 q2 : Profile) : Prop := q2.created_at ≤ q1.created_at

instance : DecidableRel byRecency := fun a b => Nat.decLe b.created_at a.created_at

instance : IsTotal Profile byRecency := ⟨fun a b => Nat.le_total b.created_at a.created_at⟩

instance : IsTrans Profile byRecency := ⟨fun _ _ _ h1 h2 => Nat.le_trans h2 h1⟩

/-- Ordering of the embedding branch: ascending cosine distance to the
anchor vector `v`. -/
def byDistance (cfg : Config) (v : List Int) (q1 q2 : Profile) : Prop :=
  cfg.dist (q1.embedding.getD []) v ≤ cfg.dist (q2.embedding.getD []) v

instance (cfg : Config) (v : List Int) : DecidableRel (byDistance cfg v) :=
  fun a b => Int.decLe _ _

instance (cfg : Config) (v : List Int) : IsTotal Profile (byDistance cfg v) :=
  ⟨fun a b => Int.le_total _ _⟩

instance (cfg : Config) (v : List Int) : IsTrans Profile (byDistance cfg v) :=
  ⟨fun _ _ _ h1 h2 => le_trans h1 h2⟩

/-- The rows each branch of _candidate_profiles ranks before truncation:
all other profiles in the recency branch, all other embedded profiles in
the distance branch. -/
def eligible_profiles (db : List Profile) (profile : Profile) : List Profile :=
  match profile.embedding with
  | none => db.filter (fun q => q.id != profile.id)
  | some _ => db.filter (fun q => q.id != profile.id && q.embedding.isSome)

/-- Translation of _candidate_profiles: exclude self, then either order the
rest by descending creation time (no embedding on the anchor) or order the
embedded rest by ascending cosine distance, then truncate to the configured
candidate limit. -/
def candidate_profiles (cfg : Config) (db : List Profile) (profile : Profile) :
    List Profile :=
  match profile.embedding with
  | none =>
    ((db.filter (fun q => q.id != profile.id)).insertionSort byRecency).take
      cfg.candidateLimit
  | some v =>
    ((db.filter (fun q => q.id != profile.id && q.embedding.isSome)).insertionSort
      (byDistance cfg v)).take cfg.candidateLimit

def cfgLimit2 : Config :=
  { cfgNoClient with candidateLimit := 2 }

def dbDemo : List Profile :=
  [profAlpha, profBeta, profEmptyPitch, profWithEmbedding]

/-! ## Match engine state and refresh pass
(match_service.create_or_update_profile_matches)

The engine state is the Profile table plus the ProfileMatch table.
update_or_create on a table carrying a unique constraint on the ordered
pair updates the row for the pair when it exists and inserts otherwise. -/

structure EngineState where
  profiles : List Profile
  store : List ProfileMatch

/-- Django Model.save: replace the row with the same primary key. -/
def save_profile (db : List Profile) (p : Profile) : List Profile :=
  db.map (fun q => if q.id = p.id then p else q)

/-- ProfileMatch.objects.update_or_create keyed on the ordered pair: the
unique constraint guarantees at most one matching row, which is updated in
place with the defaults; otherwise a fresh row is inserted. -/
def update_or_create (store : List ProfileMatch) (src tgt : Nat) (r : MatchResult) :
    List ProfileMatch :=
  match store with
  | [] => [{ source_profile := src, target_profile := tgt,
             match_score := r.score, reasoning := r.reason }]
  | m :: rest =>
    if m.source_profile = src ∧ m.target_profile = tgt then
      { m with match_score := r.score, reasoning := r.reason } :: rest
    else m :: update_or_create rest src tgt r

/-- At most one ProfileMatch row per ordered pair: the unique_together
constraint of events/models.py as a predicate on the table. -/
def UniquePairs (store : List ProfileMatch) : Prop :=
  store.Pairwise (fun m1 m2 =>
    ¬(m1.source_profile = m2.source_profile ∧ m1.target_profile = m2.target_profile))

/-- Number of rows stored for an ordered pair. -/
def countPairs : List ProfileMatch → Nat → Nat → Nat
  | [], _, _ => 0
  | m :: rest, src, tgt =>
    (if m.source_profile = src ∧ m.target_profile = tgt then 1 else 0) +
      countPairs rest src tgt

/-- Loop body of create_or_update_profile_matches: ensure the candidate
embedding, score both directions, upsert both rows. -/
def refresh_step (cfg : Config) (new_profile : Profile) (s : EngineState)
    (other : Profile) : EngineState :=
  let other2 := ensure_profile_embedding cfg other
  let result_ab := openai_score cfg new_profile other2
  let result_ba := openai_score cfg other2 new_profile
  { profiles := save_profile s.profiles other2
    store := update_or_create
      (update_or_create s.store new_profile.id other2.id result_ab)
      other2.id new_profile.id result_ba }

/-- Store effect of one loop iteration (the loop body writes the store
independently of the Profile table). -/
def refresh_store_step (cfg : Config) (new_profile : Profile)
    (st : List ProfileMatch) (other : Profile) : List ProfileMatch :=
  let other2 := ensure_profile_embedding cfg other
  update_or_create
    (update_or_create st new_profile.id other2.id (openai_score cfg new_profile other2))
    other2.id new_profile.id (openai_score cfg other2 new_profile)

/-- Translation of create_or_update_profile_matches: ensure the anchor
embedding (saving it), select candidates from the saved table, and run the
loop body over them in selector order. -/
def create_or_update_profile_matches (cfg : Config) (new_profile : Profile)
    (s : EngineState) : EngineState :=
  let p2 := ensure_profile_embedding cfg new_profile
  let db1 := save_profile s.profiles p2
  (candidate_profiles cfg db1 p2).foldl (refresh_step cfg p2)
    { profiles := db1, store := s.store }

/-- The candidate list a refresh pass on `p` from state `s` iterates over. -/
def run_candidates (cfg : Config) (p : Profile) (s : EngineState) : List Profile :=
  candidate_profiles cfg (save_profile s.profiles (ensure_profile_embedding cfg p))
    (ensure_profile_embedding cfg p)

/-- Two refresh passes in immediate succession on the same profile object
(whose embedding the first pass may have populated in place). -/
def second_run (cfg : Config) (p : Profile) (s : EngineState) : EngineState :=
  create_or_update_profile_matches cfg (ensure_profile_embedding cfg p)
    (create_or_update_profile_matches cfg p s)

/-! ## Claims C2 and C10: the fallback scorer -/

/-- C2 (counterexample).  The claim quotes the empty-pitch reason as the
literal "insufficient pitch data"; the code returns the capitalised literal
"Insufficient pitch data", so the claim as stated fails on this input. -/
theorem c2_reason_literal_counterexample :
    (fallback_score profEmptyPitch profBeta).score = 0 ∧
    (fallback_score profEmptyPitch profBeta).reason ≠ "insufficient pitch data" := by
  constructor
  · decide
  · decide

/-- C2 (amended): the fallback scorer tokenizes both pitches by lowercasing
and splitting on whitespace into sets; an empty first token set yields score
0 with reason "Insufficient pitch data" (capitalised literal); otherwise the
score is min(95, floor(35 + 65 * overlap / |tokens_a|)) with the fixed
literal reason "Token-overlap fallback score"; and the result depends only
on the two pitch texts, hence is deterministic. -/
theorem fallback_score_spec (a b : Profile) :
    (tokenSet a.pitch_text = [] →
      fallback_score a b = { score := 0, reason := "Insufficient pitch data" }) ∧
    (tokenSet a.pitch_text ≠ [] →
      (fallback_score a b).score =
        ((min 95 (35 + 65 * ((tokenSet a.pitch_text).inter (tokenSet b.pitch_text)).length /
          (tokenSet a.pitch_text).length) : Nat) : Int) ∧
      (fallback_score a b).reason = "Token-overlap fallback score") ∧
    (∀ a' b' : Profile, a.pitch_text = a'.pitch_text → b.pitch_text = b'.pitch_text →
      fallback_score a b = fallback_score a' b') := by
  refine ⟨?_, ?_, ?_⟩
  · intro h
    simp [fallback_score, h]
  · intro h
    have hne : (tokenSet a.pitch_text).isEmpty = false := by
      cases hq : tokenSet a.pitch_text with
      | nil => exact absurd hq h
      | cons x xs => rfl
    have hlen : max 1 (tokenSet a.pitch_text).length = (tokenSet a.pitch_text).length := by
      cases hq : tokenSet a.pitch_text with
      | nil => exact absurd hq h
      | cons x xs => simp [Nat.max_eq_right, Nat.succ_le_of_lt, Nat.pos_of_ne_zero]
    constructor
    · simp [fallback_score, hne, hlen]
    · simp [fallback_score, hne]
  · intro a' b' ha hb
    simp [fallback_score, ha, hb]

/-- C2 witness: both branches of the amended statement evaluated at concrete
profiles ("alpha beta" against "beta gamma delta": one shared token of two,
score min 95 (35 + 65*1/2) = 67). -/
theorem fallback_score_spec_witness :
    fallback_score profEmptyPitch profBeta =
      { score := 0, reason := "Insufficient pitch data" } ∧
    (fallback_score profAlpha profBeta).score =
      ((min 95 (35 + 65 * ((tokenSet profAlpha.pitch_text).inter
        (tokenSet profBeta.pitch_text)).length /
        (tokenSet profAlpha.pitch_text).length) : Nat) : Int) ∧
    (fallback_score profAlpha profBeta).reason = "Token-overlap fallback score" :=
  ⟨(fallback_score_spec profEmptyPitch profBeta).1 (by decide),
   ((fallback_score_spec profAlpha profBeta).2.1 (by decide)).1,
   ((fallback_score_spec profAlpha profBeta).2.1 (by decide)).2⟩

/-- C10: the fallback score is 0 exactly on an empty first token set and
otherwise lies in [35, 95]; consequently it never takes a value in 1..34 or
in 96..100. -/
theorem fallback_score_range (a b : Profile) :
    (tokenSet a.pitch_text = [] → (fallback_score a b).score = 0) ∧
    (tokenSet a.pitch_text ≠ [] →
      35 ≤ (fallback_score a b).score ∧ (fallback_score a b).score ≤ 95) ∧
    ¬(1 ≤ (fallback_score a b).score ∧ (fallback_score a b).score ≤ 34) ∧
    ¬(96 ≤ (fallback_score a b).score ∧ (fallback_score a b).score ≤ 100) := by
  have hmain : (tokenSet a.pitch_text = [] → (fallback_score a b).score = 0) ∧
      (tokenSet a.pitch_text ≠ [] →
        35 ≤ (fallback_score a b).score ∧ (fallback_score a b).score ≤ 95) := by
    constructor
    · intro h
      simp [fallback_score, h]
    · intro h
      have hne : (tokenSet a.pitch_text).isEmpty = false := by
        cases hq : tokenSet a.pitch_text with
        | nil => exact absurd hq h
        | cons x xs => rfl
      have h35 : (35 : Nat) ≤ min 95 (35 + 65 *
          ((tokenSet a.pitch_text).inter (tokenSet b.pitch_text)).length /
          max 1 (tokenSet a.pitch_text).length) :=
        le_min (by omega) (Nat.le_add_right 35 _)
      have h95 : min 95 (35 + 65 *
          ((tokenSet a.pitch_text).inter (tokenSet b.pitch_text)).length /
          max 1 (tokenSet a.pitch_text).length) ≤ 95 :=
        min_le_left _ _
      constructor
      · simpa [fallback_score, hne] using Int.ofNat_le.mpr h35
      · simpa [fallback_score, hne] using Int.ofNat_le.mpr h95
  refine ⟨hmain.1, hmain.2, ?_, ?_⟩
  · intro hrange
    by_cases h : tokenSet a.pitch_text = []
    · have := hmain.1 h
      omega
    · have := hmain.2 h
      omega
  · intro hrange
    by_cases h : tokenSet a.pitch_text = []
    · have := hmain.1 h
      omega
    · have := hmain.2 h
      omega

/-- C10 witness: range facts at concrete profiles for both branches. -/
theorem fallback_score_range_witness :
    (fallback_score profEmptyPitch profBeta).score = 0 ∧
    35 ≤ (fallback_score profAlpha profBeta).score ∧
    (fallback_score profAlpha profBeta).score ≤ 95 :=
  ⟨(fallback_score_range profEmptyPitch profBeta).1 (by decide),
   (fallback_score_range profAlpha profBeta).2.1 (by decide)⟩

/-! ## Claim C1: the oracle scorer never raises and every failure path
returns the fallback result -/

/-- C1: each failure mode of _openai_score — client not configured,
transport failure, empty response content, and a response unparseable even
after brace recovery — yields exactly the fallback result for the pair, and
every run either returns the fallback result or a successfully parsed
result (totality of the shallow embedding: no path raises). -/
theorem openai_score_never_raises (cfg : Config) (a b : Profile) :
    (cfg.hasClient = false → openai_score cfg a b = fallback_score a b) ∧
    (cfg.chatCall (render_prompt cfg.template a b) = none →
      openai_score cfg a b = fallback_score a b) ∧
    (∀ raw, cfg.chatCall (render_prompt cfg.template a b) = some raw →
      pyStrip raw = "" → openai_score cfg a b = fallback_score a b) ∧
    (∀ raw, cfg.chatCall (render_prompt cfg.template a b) = some raw →
      parse_match_json cfg.jsonLoads (pyStrip raw) = none →
      (braceSlice (pyStrip raw) = none ∨
        ∃ sub, braceSlice (pyStrip raw) = some sub ∧
          parse_match_json cfg.jsonLoads sub = none) →
      openai_score cfg a b = fallback_score a b) ∧
    (openai_score cfg a b = fallback_score a b ∨
      ∃ s r, parse_match_json cfg.jsonLoads s = some r ∧ openai_score cfg a b = r) := by
  cases hc : cfg.hasClient with
  | false =>
    refine ⟨fun _ => ?_, fun _ => ?_, fun raw _ _ => ?_, fun raw _ _ _ => ?_, Or.inl ?_⟩ <;>
      simp [openai_score, hc]
  | true =>
    cases hcall : cfg.chatCall (render_prompt cfg.template a b) with
    | none =>
      refine ⟨fun h => absurd h (by simp), fun _ => ?_, fun raw hraw _ => absurd hraw (by simp),
        fun raw hraw _ _ => absurd hraw (by simp), Or.inl ?_⟩ <;>
        simp [openai_score, hc, hcall]
    | some raw0 =>
      by_cases hempty : pyStrip raw0 = ""
      · refine ⟨fun h => absurd h (by simp), fun h => absurd h (by simp),
          fun raw hraw _ => ?_, fun raw hraw hparse _ => ?_, Or.inl ?_⟩ <;>
          simp [openai_score, hc, hcall, hempty]
      · cases hparse0 : parse_match_json cfg.jsonLoads (pyStrip raw0) with
        | some r0 =>
          refine ⟨fun h => absurd h (by simp), fun h => absurd h (by simp),
            fun raw hraw hr => ?_, fun raw hraw hparse _ => ?_,
            Or.inr ⟨pyStrip raw0, r0, hparse0, ?_⟩⟩
          · injection hraw with hraw
            subst hraw
            exact absurd hr hempty
          · injection hraw with hraw
            subst hraw
            rw [hparse0] at hparse
            exact absurd hparse (by simp)
          · simp [openai_score, hc, hcall, hempty, hparse0]
        | none =>
          have hfb : ∀ hslice : (braceSlice (pyStrip raw0) = none ∨
              ∃ sub, braceSlice (pyStrip raw0) = some sub ∧
                parse_match_json cfg.jsonLoads sub = none),
              openai_score cfg a b = fallback_score a b := by
            intro hslice
            rcases hslice with hnone | ⟨sub, hsub, hsubparse⟩
            · simp [openai_score, hc, hcall, hempty, hparse0, hnone]
            · simp [openai_score, hc, hcall, hempty, hparse0, hsub, hsubparse]
          refine ⟨fun h => absurd h (by simp), fun h => absurd h (by simp),
            fun raw hraw hr => ?_, fun raw hraw hparse hslice => ?_, ?_⟩
          · injection hraw with hraw
            subst hraw
            exact absurd hr hempty
          · injection hraw with hraw
            subst hraw
            exact hfb hslice
          · cases hslice : braceSlice (pyStrip raw0) with
            | none => exact Or.inl (hfb (Or.inl hslice))
            | some sub =>
              cases hsubparse : parse_match_json cfg.jsonLoads sub with
              | none => exact Or.inl (hfb (Or.inr ⟨sub, hslice, hsubparse⟩))
              | some r1 =>
                refine Or.inr ⟨sub, r1, hsubparse, ?_⟩
                simp [openai_score, hc, hcall, hempty, hparse0, hslice, hsubparse]

/-- C1 witness: the no-client and transport-failure paths at concrete
configurations both return the fallback result. -/
theorem openai_score_never_raises_witness :
    openai_score cfgNoClient profAlpha profBeta = fallback_score profAlpha profBeta ∧
    openai_score cfgDeadTransport profAlpha profBeta = fallback_score profAlpha profBeta :=
  ⟨(openai_score_never_raises cfgNoClient profAlpha profBeta).1 rfl,
   (openai_score_never_raises cfgDeadTransport profAlpha profBeta).2.1 rfl⟩

/-! ## Claim C3: brace-substring recovery and output sanitisation -/

/-- C3: when top-level parsing of the oracle response fails but the
substring between the first opening brace and the last closing brace
parses, _openai_score returns exactly the result of parsing that substring;
and every successfully parsed result has its score clamped into [0,100],
its reason at most 240 characters, and the literal placeholder substituted
when the reason text is empty after stripping. -/
theorem openai_score_brace_recovery_clamp (cfg : Config) (a b : Profile) :
    (∀ raw sub r, cfg.hasClient = true →
      cfg.chatCall (render_prompt cfg.template a b) = some raw →
      parse_match_json cfg.jsonLoads (pyStrip raw) = none →
      braceSlice (pyStrip raw) = some sub →
      parse_match_json cfg.jsonLoads sub = some r →
      openai_score cfg a b = r) ∧
    (∀ v r, parse_match_json_value v = some r →
      0 ≤ r.score ∧ r.score ≤ 100 ∧ r.reason.length ≤ 240 ∧
      (stripChars (pyStr (reasonField v)).toList = [] →
        r.reason = "No reason provided")) := by
  constructor
  · intro raw sub r hc hcall hparse hslice hsub
    have hempty : ¬pyStrip raw = "" := by
      intro h
      rw [h] at hslice
      simp [braceSlice, charIndexOf, pyStrip, stripChars] at hslice
    simp [openai_score, hc, hcall, hempty, hparse, hslice, hsub]
  · intro v r hr
    cases v with
    | obj fields =>
      simp only [parse_match_json_value] at hr
      cases hint : pyIntOfJson ((lookupJson fields "match_score").getD (.num 0)) with
      | none => rw [hint] at hr; exact absurd hr (by simp)
      | some n =>
        rw [hint] at hr
        simp only [Option.some.injEq] at hr
        subst hr
        refine ⟨le_max_left 0 _, max_le (by omega) (min_le_left 100 n), ?_, ?_⟩
        · by_cases hre : ((stripChars (pyStr (reasonField (.obj fields))).toList).take
            240).isEmpty
          · simp only [hre, if_pos]
            decide
          · simp only [hre, if_neg, Bool.false_eq_true, not_false_eq_true]
            show (String.mk _).length ≤ 240
            calc (String.mk ((stripChars
                (pyStr (reasonField (.obj fields))).toList).take 240)).length
                = ((stripChars (pyStr (reasonField (.obj fields))).toList).take
                  240).length := rfl
              _ ≤ 240 := by
                  rw [List.length_take]
                  exact min_le_left _ _
        · intro hstrip
          simp only [hstrip, List.take_nil, List.isEmpty_nil, if_true]
    | null => exact absurd hr (by simp [parse_match_json_value])
    | b v => exact absurd hr (by simp [parse_match_json_value])
    | num n => exact absurd hr (by simp [parse_match_json_value])
    | str s => exact absurd hr (by simp [parse_match_json_value])
    | arr l => exact absurd hr (by simp [parse_match_json_value])

/-- C3 witness: a response with leading and trailing noise around one JSON
object is recovered, producing the parse of the embedded object; and the
sanitisation bounds evaluated on that parse. -/
theorem openai_score_brace_recovery_clamp_witness :
    openai_score cfgRecovery profAlpha profBeta =
      { score := 0, reason := "No reason provided" } ∧
    (0 ≤ ({ score := 0, reason := "No reason provided" } : MatchResult).score ∧
      ({ score := 0, reason := "No reason provided" } : MatchResult).score ≤ 100 ∧
      ({ score := 0, reason := "No reason provided" } : MatchResult).reason.length ≤ 240) :=
  ⟨(openai_score_brace_recovery_clamp cfgRecovery profAlpha profBeta).1
      "noise \x7bjson\x7d tail" "\x7bjson\x7d"
      { score := 0, reason := "No reason provided" }
      rfl rfl (by decide) (by decide) (by decide),
   by
    have h := (openai_score_brace_recovery_clamp cfgRecovery profAlpha profBeta).2
      (Json.obj []) { score := 0, reason := "No reason provided" } (by decide)
    exact ⟨h.1, h.2.1, h.2.2.1⟩⟩

/-! ## Claim C9: defaults of the response parser -/

/-- C9: on a decoded JSON object the parser never falls back: a missing
match_score field defaults the score to 0, a missing or empty reasoning
field yields the literal placeholder, and an object with neither field
still parses to a valid result. -/
theorem parse_match_json_value_defaults (fields : List (String × Json)) :
    (lookupJson fields "match_score" = none →
      (parse_match_json_value (.obj fields)).isSome = true ∧
      ∀ r, parse_match_json_value (.obj fields) = some r → r.score = 0) ∧
    (lookupJson fields "reasoning" = none →
      ∀ r, parse_match_json_value (.obj fields) = some r →
        r.reason = "No reason provided") ∧
    (lookupJson fields "reasoning" = some (.str "") →
      ∀ r, parse_match_json_value (.obj fields) = some r →
        r.reason = "No reason provided") ∧
    (lookupJson fields "match_score" = none → lookupJson fields "reasoning" = none →
      parse_match_json_value (.obj fields) =
        some { score := 0, reason := "No reason provided" }) := by
  refine ⟨?_, ?_, ?_, ?_⟩
  · intro hscore
    constructor
    · simp only [parse_match_json_value, hscore, Option.getD_none, pyIntOfJson]
      rfl
    · intro r hr
      simp only [parse_match_json_value, hscore, Option.getD_none, pyIntOfJson,
        Option.some.injEq] at hr
      subst hr
      show (max 0 (min 100 0) : Int) = 0
      norm_num
  · intro hreason r hr
    simp only [parse_match_json_value] at hr
    cases hint : pyIntOfJson ((lookupJson fields "match_score").getD (.num 0)) with
    | none => rw [hint] at hr; exact absurd hr (by simp)
    | some n =>
      rw [hint] at hr
      simp only [Option.some.injEq] at hr
      subst hr
      simp [reasonField, hreason, pyStr]
      decide
  · intro hreason r hr
    simp only [parse_match_json_value] at hr
    cases hint : pyIntOfJson ((lookupJson fields "match_score").getD (.num 0)) with
    | none => rw [hint] at hr; exact absurd hr (by simp)
    | some n =>
      rw [hint] at hr
      simp only [Option.some.injEq] at hr
      subst hr
      simp [reasonField, hreason, pyStr]
      decide
  · intro hscore hreason
    simp only [parse_match_json_value, hscore, Option.getD_none, pyIntOfJson,
      reasonField, hreason]
    decide

/-- C9 witness: the empty object parses to score 0 with the placeholder
reason. -/
theorem parse_match_json_value_defaults_witness :
    parse_match_json_value (.obj []) =
      some { score := 0, reason := "No reason provided" } :=
  (parse_match_json_value_defaults []).2.2.2 rfl rfl

/-! ## Claim C8: ensure_profile_embedding -/

/-- C8: ensure_profile_embedding is a no-op performing zero provider calls
when the embedding is already present (regardless of the pitch text, which
is never consulted in that branch); when the embedding is absent it invokes
_get_embedding exactly once, persists the result only when it is non-absent;
and in every case it changes no field other than the embedding. -/
theorem ensure_profile_embedding_spec (cfg : Config) (p : Profile) :
    (p.embedding ≠ none →
      ensure_profile_embedding cfg p = p ∧
      (ensure_profile_embedding_calls cfg p).2 = 0) ∧
    (p.embedding = none →
      (ensure_profile_embedding_calls cfg p).2 = 1 ∧
      (get_embedding cfg p.pitch_text = none → ensure_profile_embedding cfg p = p) ∧
      (∀ v, get_embedding cfg p.pitch_text = some v →
        ensure_profile_embedding cfg p = { p with embedding := some v })) ∧
    ((ensure_profile_embedding cfg p).id = p.id ∧
      (ensure_profile_embedding cfg p).display_name = p.display_name ∧
      (ensure_profile_embedding cfg p).event_name = p.event_name ∧
      (ensure_profile_embedding cfg p).pitch_text = p.pitch_text ∧
      (ensure_profile_embedding cfg p).created_at = p.created_at) := by
  refine ⟨?_, ?_, ?_⟩
  · intro h
    cases hq : p.embedding with
    | none => exact absurd hq h
    | some v =>
      constructor
      · simp [ensure_profile_embedding, ensure_profile_embedding_calls, hq]
      · simp [ensure_profile_embedding_calls, hq]
  · intro h
    refine ⟨?_, ?_, ?_⟩
    · cases hg : get_embedding cfg p.pitch_text with
      | none => simp [ensure_profile_embedding_calls, h, hg]
      | some v => simp [ensure_profile_embedding_calls, h, hg]
    · intro hg
      simp [ensure_profile_embedding, ensure_profile_embedding_calls, h, hg]
    · intro v hg
      simp [ensure_profile_embedding, ensure_profile_embedding_calls, h, hg]
  · cases hq : p.embedding with
    | none =>
      cases hg : get_embedding cfg p.pitch_text with
      | none => simp [ensure_profile_embedding, ensure_profile_embedding_calls, hq, hg]
      | some v => simp [ensure_profile_embedding, ensure_profile_embedding_calls, hq, hg]
    | some v => simp [ensure_profile_embedding, ensure_profile_embedding_calls, hq]

/-- C8 witness: present-embedding no-op with zero calls, and the absent
branch with an unavailable provider making exactly one call. -/
theorem ensure_profile_embedding_spec_witness :
    (ensure_profile_embedding cfgNoClient profWithEmbedding = profWithEmbedding ∧
      (ensure_profile_embedding_calls cfgNoClient profWithEmbedding).2 = 0) ∧
    ((ensure_profile_embedding_calls cfgNoClient profAlpha).2 = 1 ∧
      ensure_profile_embedding cfgNoClient profAlpha = profAlpha) :=
  ⟨(ensure_profile_embedding_spec cfgNoClient profWithEmbedding).1 (by decide),
   ((ensure_profile_embedding_spec cfgNoClient profAlpha).2.1 rfl).1,
   ((ensure_profile_embedding_spec cfgNoClient profAlpha).2.1 rfl).2.1 rfl⟩

/-- Filtering by the ordered pair commutes with find?: only rows of the
queried direction can influence the result. -/
theorem findMatch_filter_pair (store : List ProfileMatch) (src tgt : Nat) :
    findMatch (store.filter
      (fun m => decide (m.source_profile = src ∧ m.target_profile = tgt))) src tgt =
    findMatch store src tgt := by
  induction store with
  | nil => rfl
  | cons m rest ih =>
    by_cases hm : m.source_profile = src ∧ m.target_profile = tgt
    · rw [List.filter_cons, if_pos (by simpa using hm), findMatch, if_pos hm,
        findMatch, if_pos hm]
    · rw [List.filter_cons, if_neg (by simpa using hm), findMatch, if_neg hm]
      exact ih

/-! ## Claim C4: can_message_profiles -/

/-- C4: can_message_profiles(a, b) is true exactly when the stored score of
the ordered pair (a, b) reaches the default threshold 60; a score of
exactly 60 authorises, 59 does not; and only rows of the (a, b) direction
are consulted — restricting the store to that direction changes nothing. -/
theorem can_message_profiles_spec (store : List ProfileMatch) (a b : Profile) :
    (can_message_profiles store a b = true ↔
      60 ≤ get_stored_match_score store a b) ∧
    (get_stored_match_score store a b = 60 → can_message_profiles store a b = true) ∧
    (get_stored_match_score store a b = 59 → can_message_profiles store a b = false) ∧
    can_message_profiles store a b =
      can_message_profiles (store.filter
        (fun m => decide (m.source_profile = a.id ∧ m.target_profile = b.id))) a b := by
  refine ⟨?_, ?_, ?_, ?_⟩
  · simp [can_message_profiles, MESSAGE_MATCH_THRESHOLD]
  · intro h
    simp [can_message_profiles, MESSAGE_MATCH_THRESHOLD, h]
  · intro h
    simp [can_message_profiles, MESSAGE_MATCH_THRESHOLD, h]
  · simp only [can_message_profiles, get_stored_match_score,
      findMatch_filter_pair store a.id b.id]

/-- C4 witness: score 60 authorises messaging, 59 does not, at concrete
profiles and store. -/
theorem can_message_profiles_spec_witness :
    can_message_profiles storeBoundary profAlpha profBeta = true ∧
    can_message_profiles storeBoundary profBeta profAlpha = false :=
  ⟨(can_message_profiles_spec storeBoundary profAlpha profBeta).2.1 (by decide),
   (can_message_profiles_spec storeBoundary profBeta profAlpha).2.2.1 (by decide)⟩

/-! ## Claim C5: get_stored_match_score -/

/-- C5: get_stored_match_score returns the persisted score whenever a row
for the ordered pair exists, otherwise the fallback score for the pair; and
it leaves the store unchanged — the state-passing form returns the store it
was given, persisting nothing. -/
theorem get_stored_match_score_spec (store : List ProfileMatch) (a b : Profile) :
    (∀ m, findMatch store a.id b.id = some m →
      get_stored_match_score store a b = m.match_score) ∧
    (findMatch store a.id b.id = none →
      get_stored_match_score store a b = (fallback_score a b).score) ∧
    (get_stored_match_score_st store a b).2 = store := by
  refine ⟨?_, ?_, rfl⟩
  · intro m hm
    simp [get_stored_match_score, hm]
  · intro hm
    simp [get_stored_match_score, hm]

/-- C5 witness: the persisted branch on a present row and the fallback
branch on an absent row, plus the unchanged-store component. -/
theorem get_stored_match_score_spec_witness :
    get_stored_match_score storeBoundary profAlpha profBeta = 60 ∧
    get_stored_match_score storeBoundary profAlpha profEmptyPitch =
      (fallback_score profAlpha profEmptyPitch).score ∧
    (get_stored_match_score_st storeBoundary profAlpha profBeta).2 = storeBoundary :=
  ⟨(get_stored_match_score_spec storeBoundary profAlpha profBeta).1
      { source_profile := 2, target_profile := 3, match_score := 60,
        reasoning := "at threshold" } (by decide),
   (get_stored_match_score_spec storeBoundary profAlpha profEmptyPitch).2.1 (by decide),
   (get_stored_match_score_spec storeBoundary profAlpha profBeta).2.2⟩

/-! ## Claim C6: the candidate selector contract -/

/-- C6: the candidate list excludes the anchor profile, is drawn from the
database, respects the limit (with equality as soon as enough eligible rows
exist); with no anchor embedding it is a descending-recency ordering of the
other profiles (all of them when they fit under the limit); with an anchor
embedding it contains only profiles that themselves have an embedding, in
ascending cosine-distance order, and every embedding-less profile is
strictly excluded. -/
theorem candidate_profiles_spec (cfg : Config) (db : List Profile) (p : Profile) :
    (∀ q ∈ candidate_profiles cfg db p, q.id ≠ p.id ∧ q ∈ db) ∧
    (candidate_profiles cfg db p).length ≤ cfg.candidateLimit ∧
    (cfg.candidateLimit ≤ (eligible_profiles db p).length →
      (candidate_profiles cfg db p).length = cfg.candidateLimit) ∧
    (p.embedding = none →
      List.Sorted byRecency (candidate_profiles cfg db p) ∧
      ((eligible_profiles db p).length ≤ cfg.candidateLimit →
        ∀ q ∈ db, q.id ≠ p.id → q ∈ candidate_profiles cfg db p)) ∧
    (∀ v, p.embedding = some v →
      List.Sorted (byDistance cfg v) (candidate_profiles cfg db p) ∧
      (∀ q ∈ candidate_profiles cfg db p, q.embedding.isSome = true) ∧
      (∀ q ∈ db, q.embedding = none → q ∉ candidate_profiles cfg db p)) := by
  cases hv : p.embedding with
  | none =>
    have hperm := List.perm_insertionSort byRecency
      (db.filter (fun q => q.id != p.id))
    have hres : candidate_profiles cfg db p =
        ((db.filter (fun q => q.id != p.id)).insertionSort byRecency).take
          cfg.candidateLimit := by
      simp [candidate_profiles, hv]
    have helig : eligible_profiles db p = db.filter (fun q => q.id != p.id) := by
      simp [eligible_profiles, hv]
    refine ⟨?_, ?_, ?_, ?_, ?_⟩
    · intro q hq
      rw [hres] at hq
      have hq2 : q ∈ (db.filter (fun q => q.id != p.id)).insertionSort byRecency :=
        (List.take_sublist _ _).mem hq
      have hq3 : q ∈ db.filter (fun q => q.id != p.id) := hperm.mem_iff.mp hq2
      refine ⟨?_, List.mem_of_mem_filter hq3⟩
      have := List.of_mem_filter hq3
      simpa using this
    · rw [hres, List.length_take]
      exact min_le_left _ _
    · intro hlim
      rw [helig] at hlim
      rw [hres, List.length_take, hperm.length_eq]
      exact Nat.min_eq_left hlim
    · intro _
      constructor
      · rw [hres]
        exact List.Pairwise.sublist (List.take_sublist _ _)
          (List.sorted_insertionSort byRecency _)
      · intro hlen q hqdb hqid
        rw [helig, ← hperm.length_eq] at hlen
        rw [hres, List.take_of_length_le hlen, hperm.mem_iff]
        exact List.mem_filter.mpr ⟨hqdb, by simpa using hqid⟩
    · intro v hv2
      exact absurd hv2 (by simp)
  | some v0 =>
    have hperm := List.perm_insertionSort (byDistance cfg v0)
      (db.filter (fun q => q.id != p.id && q.embedding.isSome))
    have hres : candidate_profiles cfg db p =
        ((db.filter (fun q => q.id != p.id && q.embedding.isSome)).insertionSort
          (byDistance cfg v0)).take cfg.candidateLimit := by
      simp [candidate_profiles, hv]
    have helig : eligible_profiles db p =
        db.filter (fun q => q.id != p.id && q.embedding.isSome) := by
      simp [eligible_profiles, hv]
    have hmemfilter : ∀ q, q ∈ candidate_profiles cfg db p →
        q ∈ db ∧ (q.id != p.id && q.embedding.isSome) = true := by
      intro q hq
      rw [hres] at hq
      have hq2 : q ∈ db.filter (fun q => q.id != p.id && q.embedding.isSome) :=
        hperm.mem_iff.mp ((List.take_sublist _ _).mem hq)
      exact ⟨(List.mem_filter.mp hq2).1, (List.mem_filter.mp hq2).2⟩
    refine ⟨?_, ?_, ?_, ?_, ?_⟩
    · intro q hq
      obtain ⟨hqdb, hpred⟩ := hmemfilter q hq
      simp only [Bool.and_eq_true, bne_iff_ne, ne_eq] at hpred
      exact ⟨hpred.1, hqdb⟩
    · rw [hres, List.length_take]
      exact min_le_left _ _
    · intro hlim
      rw [helig] at hlim
      rw [hres, List.length_take, hperm.length_eq]
      exact Nat.min_eq_left hlim
    · intro hnone
      exact absurd hnone (by simp)
    · intro v hv2
      injection hv2 with hv2
      subst hv2
      refine ⟨?_, ?_, ?_⟩
      · rw [hres]
        exact List.Pairwise.sublist (List.take_sublist _ _)
          (List.sorted_insertionSort (byDistance cfg v0) _)
      · intro q hq
        obtain ⟨_, hpred⟩ := hmemfilter q hq
        simp only [Bool.and_eq_true] at hpred
        exact hpred.2
      · intro q _ hqnone hq
        obtain ⟨_, hpred⟩ := hmemfilter q hq
        simp only [Bool.and_eq_true] at hpred
        rw [hqnone] at hpred
        exact absurd hpred.2 (by simp)

/-- C6 witness: the limit is hit exactly with three eligible rows and limit
two; with no anchor embedding another profile is selected; with an anchor
embedding an embedding-less profile is strictly excluded. -/
theorem candidate_profiles_spec_witness :
    (candidate_profiles cfgLimit2 dbDemo profAlpha).length = 2 ∧
    profBeta ∈ candidate_profiles cfgNoClient dbDemo profAlpha ∧
    profAlpha ∉ candidate_profiles cfgNoClient dbDemo profWithEmbedding :=
  ⟨(candidate_profiles_spec cfgLimit2 dbDemo profAlpha).2.2.1 (by decide),
   ((candidate_profiles_spec cfgNoClient dbDemo profAlpha).2.2.2.1 rfl).2
     (by decide) profBeta (by decide) (by decide),
   ((candidate_profiles_spec cfgNoClient dbDemo profWithEmbedding).2.2.2.2
     [1, 2] rfl).2.2 profAlpha (by decide) rfl⟩

/-! ## Helper lemmas about ensure_profile_embedding and the store -/

theorem ensure_profile_embedding_id (cfg : Config) (q : Profile) :
    (ensure_profile_embedding cfg q).id = q.id := by
  cases hq : q.embedding with
  | none =>
    cases hg : get_embedding cfg q.pitch_text with
    | none => simp [ensure_profile_embedding, ensure_profile_embedding_calls, hq, hg]
    | some v => simp [ensure_profile_embedding, ensure_profile_embedding_calls, hq, hg]
  | some v => simp [ensure_profile_embedding, ensure_profile_embedding_calls, hq]

theorem ensure_profile_embedding_idem (cfg : Config) (q : Profile) :
    ensure_profile_embedding cfg (ensure_profile_embedding cfg q) =
      ensure_profile_embedding cfg q := by
  cases hq : q.embedding with
  | none =>
    cases hg : get_embedding cfg q.pitch_text with
    | none =>
      simp [ensure_profile_embedding, ensure_profile_embedding_calls, hq, hg]
    | some v =>
      simp [ensure_profile_embedding, ensure_profile_embedding_calls, hq, hg]
  | some v =>
    simp [ensure_profile_embedding, ensure_profile_embedding_calls, hq]

/-- Keys of every row of an upsert result come from the old table or are
the upserted pair. -/
theorem mem_update_or_create (store : List ProfileMatch) (src tgt : Nat)
    (r : MatchResult) :
    ∀ x ∈ update_or_create store src tgt r,
      (∃ y ∈ store, x.source_profile = y.source_profile ∧
        x.target_profile = y.target_profile) ∨
      (x.source_profile = src ∧ x.target_profile = tgt) := by
  induction store with
  | nil =>
    intro x hx
    rw [update_or_create, List.mem_singleton] at hx
    subst hx
    exact Or.inr ⟨rfl, rfl⟩
  | cons m rest ih =>
    intro x hx
    by_cases hm : m.source_profile = src ∧ m.target_profile = tgt
    · rw [update_or_create, if_pos hm, List.mem_cons] at hx
      rcases hx with hx | hx
      · subst hx
        exact Or.inl ⟨m, List.mem_cons_self m rest, rfl, rfl⟩
      · exact Or.inl ⟨x, List.mem_cons_of_mem m hx, rfl, rfl⟩
    · rw [update_or_create, if_neg hm, List.mem_cons] at hx
      rcases hx with hx | hx
      · subst hx
        exact Or.inl ⟨x, List.mem_cons_self x rest, rfl, rfl⟩
      · rcases ih x hx with ⟨y, hy, he⟩ | he
        · exact Or.inl ⟨y, List.mem_cons_of_mem m hy, he⟩
        · exact Or.inr he

/-- An upsert preserves the unique-pair constraint. -/
theorem update_or_create_uniquePairs (store : List ProfileMatch) (src tgt : Nat)
    (r : MatchResult) (h : UniquePairs store) :
    UniquePairs (update_or_create store src tgt r) := by
  induction store with
  | nil =>
    rw [update_or_create]
    exact List.pairwise_singleton _ _
  | cons m rest ih =>
    rw [UniquePairs, List.pairwise_cons] at h
    obtain ⟨hm1, hrest⟩ := h
    by_cases hm : m.source_profile = src ∧ m.target_profile = tgt
    · rw [UniquePairs, update_or_create, if_pos hm, List.pairwise_cons]
      exact ⟨fun y hy => hm1 y hy, hrest⟩
    · rw [UniquePairs, update_or_create, if_neg hm, List.pairwise_cons]
      refine ⟨?_, ih hrest⟩
      intro x hx
      rcases mem_update_or_create rest src tgt r x hx with ⟨y, hy, he1, he2⟩ | ⟨he1, he2⟩
      · rw [he1, he2]
        exact hm1 y hy
      · rw [he1, he2]
        exact hm

/-- After an upsert the row for the upserted pair holds exactly the written
content. -/
theorem findMatch_update_or_create_same (store : List ProfileMatch) (src tgt : Nat)
    (r : MatchResult) :
    findMatch (update_or_create store src tgt r) src tgt =
      some { source_profile := src, target_profile := tgt,
             match_score := r.score, reasoning := r.reason } := by
  induction store with
  | nil =>
    rw [update_or_create, findMatch, if_pos ⟨rfl, rfl⟩]
  | cons m rest ih =>
    by_cases hm : m.source_profile = src ∧ m.target_profile = tgt
    · rw [update_or_create, if_pos hm, findMatch, if_pos ⟨hm.1, hm.2⟩]
      rw [hm.1, hm.2]
    · rw [update_or_create, if_neg hm, findMatch, if_neg hm]
      exact ih

/-- An upsert leaves the row of every other ordered pair unchanged. -/
theorem findMatch_update_or_create_other (store : List ProfileMatch)
    (src tgt src2 tgt2 : Nat) (r : MatchResult)
    (hne : ¬(src2 = src ∧ tgt2 = tgt)) :
    findMatch (update_or_create store src tgt r) src2 tgt2 =
      findMatch store src2 tgt2 := by
  induction store with
  | nil =>
    rw [update_or_create, findMatch, findMatch, findMatch, if_neg]
    intro hcon
    exact hne ⟨hcon.1.symm, hcon.2.symm⟩
  | cons m rest ih =>
    by_cases hm : m.source_profile = src ∧ m.target_profile = tgt
    · have hq : ¬(m.source_profile = src2 ∧ m.target_profile = tgt2) := by
        intro hcon
        exact hne ⟨hm.1 ▸ hcon.1 ▸ rfl, hm.2 ▸ hcon.2 ▸ rfl⟩
      rw [update_or_create, if_pos hm, findMatch, if_neg hq, findMatch, if_neg hq]
    · by_cases hq : m.source_profile = src2 ∧ m.target_profile = tgt2
      · rw [update_or_create, if_neg hm, findMatch, if_pos hq, findMatch, if_pos hq]
      · rw [update_or_create, if_neg hm, findMatch, if_neg hq, findMatch, if_neg hq]
        exact ih

/-- A table with no row for a pair counts zero rows for it. -/
theorem countPairs_eq_zero (store : List ProfileMatch) (src tgt : Nat)
    (h : ∀ x ∈ store, ¬(x.source_profile = src ∧ x.target_profile = tgt)) :
    countPairs store src tgt = 0 := by
  induction store with
  | nil => rw [countPairs]
  | cons x xs ihx =>
    rw [countPairs, if_neg (h x (List.mem_cons_self x xs)),
      ihx (fun y hy => h y (List.mem_cons_of_mem x hy))]

/-- Under the unique-pair constraint a present row is the only row for its
pair. -/
theorem countPairs_eq_one (store : List ProfileMatch) (src tgt : Nat)
    (hu : UniquePairs store) (m : ProfileMatch)
    (hm : findMatch store src tgt = some m) :
    countPairs store src tgt = 1 := by
  induction store generalizing m with
  | nil => exact absurd hm (by rw [findMatch]; simp)
  | cons m0 rest ih =>
    rw [UniquePairs, List.pairwise_cons] at hu
    obtain ⟨hm0, hrest⟩ := hu
    by_cases hq : m0.source_profile = src ∧ m0.target_profile = tgt
    · have hzero : countPairs rest src tgt = 0 := by
        refine countPairs_eq_zero rest src tgt ?_
        intro x hx hcon
        exact hm0 x hx ⟨hq.1.trans hcon.1.symm, hq.2.trans hcon.2.symm⟩
      rw [countPairs, if_pos hq, hzero]
    · rw [findMatch, if_neg hq] at hm
      rw [countPairs, if_neg hq, ih hrest m hm]

/-- Saving a profile replaces a row in place: the primary-key sequence of
the table is unchanged. -/
theorem save_profile_ids (db : List Profile) (p : Profile) :
    (save_profile db p).map Profile.id = db.map Profile.id := by
  induction db with
  | nil => rfl
  | cons q qs ih =>
    rw [save_profile, List.map_cons, List.map_cons, List.map_cons]
    rw [save_profile] at ih
    rw [ih]
    by_cases h : q.id = p.id
    · rw [if_pos h, h]
    · rw [if_neg h]

/-- The store produced by a refresh loop depends on the starting store
only: projection of the fold to the store component. -/
theorem foldl_refresh_store (cfg : Config) (p2 : Profile) (others : List Profile)
    (s : EngineState) :
    (others.foldl (refresh_step cfg p2) s).store =
      others.foldl (refresh_store_step cfg p2) s.store := by
  induction others generalizing s with
  | nil => rfl
  | cons o os ih =>
    rw [List.foldl_cons, List.foldl_cons, ih]
    rfl

/-- A refresh loop never changes the primary-key sequence of the Profile
table. -/
theorem foldl_refresh_profiles_ids (cfg : Config) (p2 : Profile)
    (others : List Profile) (s : EngineState) :
    ((others.foldl (refresh_step cfg p2) s).profiles).map Profile.id =
      s.profiles.map Profile.id := by
  induction others generalizing s with
  | nil => rfl
  | cons o os ih =>
    rw [List.foldl_cons, ih]
    exact save_profile_ids _ _

/-- A refresh loop preserves the unique-pair constraint. -/
theorem foldl_refresh_store_uniquePairs (cfg : Config) (p2 : Profile)
    (others : List Profile) (st : List ProfileMatch) (h : UniquePairs st) :
    UniquePairs (others.foldl (refresh_store_step cfg p2) st) := by
  induction others generalizing st with
  | nil => exact h
  | cons o os ih =>
    rw [List.foldl_cons]
    exact ih _ (update_or_create_uniquePairs _ _ _ _
      (update_or_create_uniquePairs _ _ _ _ h))

/-- A present row stays present through an upsert. -/
theorem findMatch_update_or_create_isSome (store : List ProfileMatch)
    (src tgt src2 tgt2 : Nat) (r : MatchResult)
    (h : (findMatch store src2 tgt2).isSome = true) :
    (findMatch (update_or_create store src tgt r) src2 tgt2).isSome = true := by
  by_cases hq : src2 = src ∧ tgt2 = tgt
  · rw [hq.1, hq.2, findMatch_update_or_create_same]
    rfl
  · rw [findMatch_update_or_create_other store src tgt src2 tgt2 r hq]
    exact h

/-- A present row stays present through a refresh loop. -/
theorem foldl_refresh_store_presence (cfg : Config) (p2 : Profile)
    (others : List Profile) (st : List ProfileMatch) (src tgt : Nat)
    (h : (findMatch st src tgt).isSome = true) :
    (findMatch (others.foldl (refresh_store_step cfg p2) st) src tgt).isSome =
      true := by
  induction others generalizing st with
  | nil => exact h
  | cons o os ih =>
    rw [List.foldl_cons]
    exact ih _ (findMatch_update_or_create_isSome _ _ _ _ _ _
      (findMatch_update_or_create_isSome _ _ _ _ _ _ h))

/-- A refresh loop leaves every pair it does not touch unchanged. -/
theorem foldl_refresh_store_frame (cfg : Config) (p2 : Profile)
    (others : List Profile) (st : List ProfileMatch) (src tgt : Nat)
    (h : ∀ o ∈ others, ¬(src = p2.id ∧ tgt = o.id) ∧ ¬(src = o.id ∧ tgt = p2.id)) :
    findMatch (others.foldl (refresh_store_step cfg p2) st) src tgt =
      findMatch st src tgt := by
  induction others generalizing st with
  | nil => rfl
  | cons o os ih
  =>
    rw [List.foldl_cons, ih _ (fun o' ho' => h o' (List.mem_cons_of_mem o ho'))]
    obtain ⟨h1, h2⟩ := h o (List.mem_cons_self o os)
    rw [refresh_store_step]
    rw [findMatch_update_or_create_other _ _ _ _ _ _
      (by rw [ensure_profile_embedding_id]; exact h2)]
    rw [findMatch_update_or_create_other _ _ _ _ _ _
      (by rw [ensure_profile_embedding_id]; exact h1)]

/-- After a refresh loop over candidates with mutually distinct primary
keys, each touched pair holds exactly the content computed for it during
the loop. -/
theorem foldl_refresh_store_post (cfg : Config) (p2 : Profile)
    (others : List Profile) (st : List ProfileMatch)
    (hself : ∀ o ∈ others, o.id ≠ p2.id)
    (hdist : others.Pairwise (fun o1 o2 => o1.id ≠ o2.id)) :
    ∀ o ∈ others,
      findMatch (others.foldl (refresh_store_step cfg p2) st) p2.id o.id =
        some { source_profile := p2.id, target_profile := o.id,
               match_score := (openai_score cfg p2 (ensure_profile_embedding cfg o)).score,
               reasoning := (openai_score cfg p2 (ensure_profile_embedding cfg o)).reason } ∧
      findMatch (others.foldl (refresh_store_step cfg p2) st) o.id p2.id =
        some { source_profile := o.id, target_profile := p2.id,
               match_score := (openai_score cfg (ensure_profile_embedding cfg o) p2).score,
               reasoning := (openai_score cfg (ensure_profile_embedding cfg o) p2).reason } := by
  induction others generalizing st with
  | nil => intro o ho; exact absurd ho (List.not_mem_nil o)
  | cons o0 os ih =>
    intro o ho
    rw [List.pairwise_cons] at hdist
    obtain ⟨hd0, hdos⟩ := hdist
    rcases List.mem_cons.mp ho with he | hos
    · subst he
      have hp0 : o.id ≠ p2.id := hself o (List.mem_cons_self o os)
      have hframe1 : ∀ o' ∈ os, ¬(p2.id = p2.id ∧ o.id = o'.id) ∧
          ¬(p2.id = o'.id ∧ o.id = p2.id) := by
        intro o' ho'
        constructor
        · intro hcon
          exact hd0 o' ho' hcon.2
        · intro hcon
          exact hself o' (List.mem_cons_of_mem o ho') hcon.1.symm
      have hframe2 : ∀ o' ∈ os, ¬(o.id = p2.id ∧ p2.id = o'.id) ∧
          ¬(o.id = o'.id ∧ p2.id = p2.id) := by
        intro o' ho'
        constructor
        · intro hcon
          exact hp0 hcon.1
        · intro hcon
          exact hd0 o' ho' hcon.1
      rw [List.foldl_cons]
      constructor
      · rw [foldl_refresh_store_frame cfg p2 os _ p2.id o.id hframe1]
        rw [refresh_store_step]
        rw [findMatch_update_or_create_other _ _ _ _ _ _
          (by rw [ensure_profile_embedding_id]; intro hcon; exact hp0 hcon.1.symm)]
        rw [show (ensure_profile_embedding cfg o).id = o.id from
          ensure_profile_embedding_id cfg o]
        exact findMatch_update_or_create_same _ _ _ _
      · rw [foldl_refresh_store_frame cfg p2 os _ o.id p2.id hframe2]
        rw [refresh_store_step]
        rw [show (ensure_profile_embedding cfg o).id = o.id from
          ensure_profile_embedding_id cfg o]
        exact findMatch_update_or_create_same _ _ _ _
    · exact ih _ (fun o' ho' => hself o' (List.mem_cons_of_mem o0 ho')) hdos o hos

/-- Every selected candidate is a profile other than the anchor. -/
theorem mem_candidate_profiles_ne (cfg : Config) (db : List Profile) (q : Profile) :
    ∀ o ∈ candidate_profiles cfg db q, o.id ≠ q.id := by
  intro o ho
  cases hv : q.embedding with
  | none =>
    rw [candidate_profiles] at ho
    rw [hv] at ho
    have ho2 := (List.perm_insertionSort byRecency _).mem_iff.mp
      ((List.take_sublist _ _).mem ho)
    have := List.of_mem_filter ho2
    simpa using this
  | some v =>
    rw [candidate_profiles] at ho
    rw [hv] at ho
    have ho2 := (List.perm_insertionSort (byDistance cfg v) _).mem_iff.mp
      ((List.take_sublist _ _).mem ho)
    have hpred := (List.mem_filter.mp ho2).2
    rw [Bool.and_eq_true] at hpred
    simpa using hpred.1

/-- Candidate selection from a table with distinct primary keys yields
candidates with distinct primary keys. -/
theorem candidate_profiles_nodup_ids (cfg : Config) (db : List Profile) (q : Profile)
    (h : (db.map Profile.id).Nodup) :
    ((candidate_profiles cfg db q).map Profile.id).Nodup := by
  cases hv : q.embedding with
  | none =>
    rw [candidate_profiles, hv]
    have h1 : ((db.filter (fun x => x.id != q.id)).map Profile.id).Nodup :=
      h.sublist (List.Sublist.map Profile.id (List.filter_sublist db))
    have h2 : (((db.filter (fun x => x.id != q.id)).insertionSort byRecency).map
        Profile.id).Nodup :=
      (((List.perm_insertionSort byRecency _).map Profile.id).nodup_iff).mpr h1
    exact h2.sublist (List.Sublist.map Profile.id (List.take_sublist _ _))
  | some v =>
    rw [candidate_profiles, hv]
    have h1 : ((db.filter (fun x => x.id != q.id && x.embedding.isSome)).map
        Profile.id).Nodup :=
      h.sublist (List.Sublist.map Profile.id (List.filter_sublist db))
    have h2 : (((db.filter (fun x => x.id != q.id && x.embedding.isSome)).insertionSort
        (byDistance cfg v)).map Profile.id).Nodup :=
      (((List.perm_insertionSort (byDistance cfg v) _).map Profile.id).nodup_iff).mpr h1
    exact h2.sublist (List.Sublist.map Profile.id (List.take_sublist _ _))

/-- Distinct mapped keys as a pairwise statement on the rows themselves. -/
theorem pairwise_ne_of_nodup_ids (l : List Profile)
    (h : (l.map Profile.id).Nodup) :
    l.Pairwise (fun o1 o2 => o1.id ≠ o2.id) := by
  rw [List.Nodup, List.pairwise_map] at h
  exact h

/-! ## Claim C7: unique-pair invariant and upsert idempotence of the
refresh pass -/

/-- C7: starting from a store with at most one row per ordered pair and a
profile table with distinct primary keys, one refresh pass and a second
pass run immediately after both preserve the unique-pair constraint; after
the two passes every pair touched by the second pass has exactly one row
whose content equals the second pass's own computation for it, and every
pair touched by the first pass still has exactly one row (upserts
overwrite, never duplicate). -/
theorem create_or_update_profile_matches_idempotent (cfg : Config) (p : Profile)
    (s0 : EngineState) (hstore : UniquePairs s0.store)
    (hids : (s0.profiles.map Profile.id).Nodup) :
    UniquePairs (create_or_update_profile_matches cfg p s0).store ∧
    UniquePairs (second_run cfg p s0).store ∧
    (∀ o ∈ run_candidates cfg (ensure_profile_embedding cfg p)
        (create_or_update_profile_matches cfg p s0),
      countPairs (second_run cfg p s0).store
        (ensure_profile_embedding cfg p).id o.id = 1 ∧
      countPairs (second_run cfg p s0).store
        o.id (ensure_profile_embedding cfg p).id = 1 ∧
      findMatch (second_run cfg p s0).store
          (ensure_profile_embedding cfg p).id o.id =
        some { source_profile := (ensure_profile_embedding cfg p).id,
               target_profile := o.id,
               match_score := (openai_score cfg (ensure_profile_embedding cfg p)
                 (ensure_profile_embedding cfg o)).score,
               reasoning := (openai_score cfg (ensure_profile_embedding cfg p)
                 (ensure_profile_embedding cfg o)).reason } ∧
      findMatch (second_run cfg p s0).store
          o.id (ensure_profile_embedding cfg p).id =
        some { source_profile := o.id,
               target_profile := (ensure_profile_embedding cfg p).id,
               match_score := (openai_score cfg (ensure_profile_embedding cfg o)
                 (ensure_profile_embedding cfg p)).score,
               reasoning := (openai_score cfg (ensure_profile_embedding cfg o)
                 (ensure_profile_embedding cfg p)).reason }) ∧
    (∀ o ∈ run_candidates cfg p s0,
      countPairs (second_run cfg p s0).store
        (ensure_profile_embedding cfg p).id o.id = 1 ∧
      countPairs (second_run cfg p s0).store
        o.id (ensure_profile_embedding cfg p).id = 1) := by
  set P1 := ensure_profile_embedding cfg p with hP1
  set s1 := create_or_update_profile_matches cfg p s0 with hs1def
  set s2 := second_run cfg p s0 with hs2def
  have hidem : ensure_profile_embedding cfg P1 = P1 := ensure_profile_embedding_idem cfg p
  have hs1unf : s1 = (candidate_profiles cfg (save_profile s0.profiles P1) P1).foldl
      (refresh_step cfg P1)
      { profiles := save_profile s0.profiles P1, store := s0.store } := by
    rw [hs1def]
    rfl
  have hs2unf : s2 = (candidate_profiles cfg (save_profile s1.profiles P1) P1).foldl
      (refresh_step cfg P1)
      { profiles := save_profile s1.profiles P1, store := s1.store } := by
    rw [hs2def, second_run]
    rw [← hP1, ← hs1def]
    rw [create_or_update_profile_matches]
    rw [hidem]
  have hs1store : s1.store = (candidate_profiles cfg (save_profile s0.profiles P1)
      P1).foldl (refresh_store_step cfg P1) s0.store := by
    rw [hs1unf, foldl_refresh_store]
  have hs2store : s2.store = (candidate_profiles cfg (save_profile s1.profiles P1)
      P1).foldl (refresh_store_step cfg P1) s1.store := by
    rw [hs2unf, foldl_refresh_store]
  have huniq1 : UniquePairs s1.store := by
    rw [hs1store]
    exact foldl_refresh_store_uniquePairs _ _ _ _ hstore
  have huniq2 : UniquePairs s2.store := by
    rw [hs2store]
    exact foldl_refresh_store_uniquePairs _ _ _ _ huniq1
  have hids1 : (s1.profiles.map Profile.id).Nodup := by
    rw [hs1unf, foldl_refresh_profiles_ids]
    have hsp : ((save_profile s0.profiles P1).map Profile.id).Nodup := by
      rw [save_profile_ids]
      exact hids
    exact hsp
  have hids0s : ((save_profile s0.profiles P1).map Profile.id).Nodup := by
    rw [save_profile_ids]
    exact hids
  have hids1s : ((save_profile s1.profiles P1).map Profile.id).Nodup := by
    rw [save_profile_ids]
    exact hids1
  have hself1 : ∀ o ∈ candidate_profiles cfg (save_profile s0.profiles P1) P1,
      o.id ≠ P1.id := mem_candidate_profiles_ne cfg _ P1
  have hdist1 : (candidate_profiles cfg (save_profile s0.profiles P1)
      P1).Pairwise (fun o1 o2 => o1.id ≠ o2.id) :=
    pairwise_ne_of_nodup_ids _ (candidate_profiles_nodup_ids cfg _ P1 hids0s)
  have hself2 : ∀ o ∈ candidate_profiles cfg (save_profile s1.profiles P1) P1,
      o.id ≠ P1.id := mem_candidate_profiles_ne cfg _ P1
  have hdist2 : (candidate_profiles cfg (save_profile s1.profiles P1)
      P1).Pairwise (fun o1 o2 => o1.id ≠ o2.id) :=
    pairwise_ne_of_nodup_ids _ (candidate_profiles_nodup_ids cfg _ P1 hids1s)
  have hpost1 := foldl_refresh_store_post cfg P1
    (candidate_profiles cfg (save_profile s0.profiles P1) P1) s0.store hself1 hdist1
  have hpost2 := foldl_refresh_store_post cfg P1
    (candidate_profiles cfg (save_profile s1.profiles P1) P1) s1.store hself2 hdist2
  have hrc2 : run_candidates cfg P1 s1 =
      candidate_profiles cfg (save_profile s1.profiles P1) P1 := by
    rw [run_candidates, hidem]
  have hrc1 : run_candidates cfg p s0 =
      candidate_profiles cfg (save_profile s0.profiles P1) P1 := by
    rw [run_candidates, ← hP1]
  refine ⟨huniq1, huniq2, ?_, ?_⟩
  · intro o ho
    rw [hrc2] at ho
    obtain ⟨hfwd, hrev⟩ := hpost2 o ho
    refine ⟨?_, ?_, ?_, ?_⟩
    · exact countPairs_eq_one s2.store P1.id o.id huniq2 _ (by rw [hs2store]; exact hfwd)
    · exact countPairs_eq_one s2.store o.id P1.id huniq2 _ (by rw [hs2store]; exact hrev)
    · rw [hs2store]
      exact hfwd
    · rw [hs2store]
      exact hrev
  · intro o ho
    rw [hrc1] at ho
    obtain ⟨hfwd, hrev⟩ := hpost1 o ho
    have hpres1 : (findMatch s1.store P1.id o.id).isSome = true := by
      rw [hs1store, hfwd]
      rfl
    have hpres1r : (findMatch s1.store o.id P1.id).isSome = true := by
      rw [hs1store, hrev]
      rfl
    have hpres2 : (findMatch s2.store P1.id o.id).isSome = true := by
      rw [hs2store]
      exact foldl_refresh_store_presence _ _ _ _ _ _ hpres1
    have hpres2r : (findMatch s2.store o.id P1.id).isSome = true := by
      rw [hs2store]
      exact foldl_refresh_store_presence _ _ _ _ _ _ hpres1r
    obtain ⟨m1, hm1⟩ := Option.isSome_iff_exists.mp hpres2
    obtain ⟨m2, hm2⟩ := Option.isSome_iff_exists.mp hpres2r
    exact ⟨countPairs_eq_one s2.store P1.id o.id huniq2 m1 hm1,
      countPairs_eq_one s2.store o.id P1.id huniq2 m2 hm2⟩

/-- C7 witness: both passes on a concrete four-profile table starting from
an empty store keep the unique-pair constraint. -/
theorem create_or_update_profile_matches_idempotent_witness :
    UniquePairs (create_or_update_profile_matches cfgNoClient profAlpha
      { profiles := dbDemo, store := [] }).store ∧
    UniquePairs (second_run cfgNoClient profAlpha
      { profiles := dbDemo, store := [] }).store :=
  ⟨(create_or_update_profile_matches_idempotent cfgNoClient profAlpha
      { profiles := dbDemo, store := [] } List.Pairwise.nil (by decide)).1,
   (create_or_update_profile_matches_idempotent cfgNoClient profAlpha
      { profiles := dbDemo, store := [] } List.Pairwise.nil (by decide)).2.1⟩
